import Mathlib

/-!
Shallow embedding of the nymia-desktop backend core (src-tauri/src):
the JSON-RPC transport (rpc_client.rs), the credential/config discovery
and parallel blockchain detection (credentials.rs), and the authenticated
messaging protocol (message_rpc.rs).

Rust strings are modelled as `List Char`; machine integers as `Nat`/`Int`
with explicit bounds where the source uses bounded types (`u64`, `u16`);
`f64` transaction amounts as `ℚ` (the code only compares them to `0.0`);
fallible code as an explicit result type; network interaction as explicit
outcome values passed to the pure continuation of each function.
-/

/-- Convert a string literal to the `List Char` representation used throughout. -/
def lc (s : String) : List Char := s.toList

/-- The Unicode White_Space code points recognised by Rust `char::is_whitespace`. -/
def wsList : List Char :=
  ['\t', '\n', '\x0b', '\x0c', '\r', ' ',
   '\u0085', '\u00a0', '\u1680',
   '\u2000', '\u2001', '\u2002', '\u2003', '\u2004', '\u2005',
   '\u2006', '\u2007', '\u2008', '\u2009', '\u200a',
   '\u2028', '\u2029', '\u202f', '\u205f', '\u3000']

/-- Rust `char::is_whitespace`. -/
def isWS (c : Char) : Bool := wsList.contains c

/-- Rust `str::trim`: strip leading and trailing whitespace. -/
def trimL (l : List Char) : List Char :=
  ((l.dropWhile isWS).reverse.dropWhile isWS).reverse

/-- Whether `pat` is a prefix of `s` (Rust `str::starts_with`, and the
matching step of `str::find`). -/
def startsWithL : List Char → List Char → Bool
  | [], _ => true
  | _ :: _, [] => false
  | a :: as, b :: bs => a = b && startsWithL as bs

/-- Rust `str::find(pat)` combined with the slicing the messaging code does
around it: locate the first occurrence of `pat` in `s` and return the text
before it and the text after it. `none` when `pat` does not occur. -/
def splitOnFirst (pat : List Char) : List Char → Option (List Char × List Char)
  | [] => if startsWithL pat [] then some ([], []) else none
  | c :: cs =>
    if startsWithL pat (c :: cs) then some ([], (c :: cs).drop pat.length)
    else (splitOnFirst pat cs).map (fun p => (c :: p.1, p.2))

/-- Whether `pat` occurs anywhere in `s`. -/
def hasOccur (pat s : List Char) : Bool := (splitOnFirst pat s).isSome

/-- Decimal digit character for `d < 10`. -/
def digitChar (d : Nat) : Char := Char.ofNat (48 + d)

/-- Fuelled digit renderer (structural recursion, so that it reduces inside
the kernel; the fuel never runs out since a number has fewer digits than
`n + 1`). -/
def natReprAux : Nat → Nat → List Char
  | 0, _ => []
  | fuel + 1, n =>
    if n < 10 then [digitChar n]
    else natReprAux fuel (n / 10) ++ [digitChar (n % 10)]

/-- Decimal rendering of a natural number, as produced by Rust's `Display`
for unsigned integers (used by `format!` on the `u64` timestamp). -/
def natRepr (n : Nat) : List Char := natReprAux (n + 1) n

/-- Value of a decimal digit character, `none` for a non-digit. -/
def charDigit (c : Char) : Option Nat :=
  if 48 ≤ c.toNat ∧ c.toNat ≤ 57 then some (c.toNat - 48) else none

/-- Fold a digit string into its value; `none` on any non-digit. -/
def parseNatCore (l : List Char) : Option Nat :=
  l.foldl (fun acc c => acc.bind (fun a => (charDigit c).map (fun d => a * 10 + d))) (some 0)

/-- Rust's integer parsing accepts one optional leading `+` sign. -/
def stripPlus (l : List Char) : List Char :=
  match l with
  | c :: rest => if c = '+' then rest else l
  | [] => l

/-- Rust `str::parse::<u64>`: optional `+`, at least one digit, all digits,
value within `u64` range. -/
def parseU64 (l : List Char) : Option Nat :=
  let l2 := stripPlus l
  if l2 = [] then none
  else (parseNatCore l2).bind (fun v => if v < 2 ^ 64 then some v else none)

/-- Rust `str::parse::<u16>` (used for `rpcport` in config files). -/
def parseU16 (l : List Char) : Option Nat :=
  let l2 := stripPlus l
  if l2 = [] then none
  else (parseNatCore l2).bind (fun v => if v < 2 ^ 16 then some v else none)

/-- The `//f//` sender marker of the memo wire format. -/
def fMark : List Char := lc "//f//"

/-- The `//t//` timestamp marker of the memo wire format. -/
def tMark : List Char := lc "//t//"

/-- The `//` signature separator of the memo wire format. -/
def sMark : List Char := lc "//"

/-- The `LOADING:` tag `test_daemon_connection` prepends to a code -28 error. -/
def loadingTag : List Char := lc "LOADING:"

/-! ## Result type

Rust `Result<T, E>` (own inductive so that `DecidableEq` derives cleanly). -/

inductive Res (ε : Type) (α : Type) where
  | ok (v : α)
  | err (e : ε)
deriving DecidableEq, Repr

/-! ## RPC transport (rpc_client.rs) -/

/-- `VerusRpcError` from rpc_client.rs. -/
inductive VerusRpcError where
  | NetworkError (msg : List Char)
  | Rpc (code : Int) (message : List Char)
  | ParseError (msg : List Char)
  | Timeout
  | Format
  | NotFoundOrIneligible
  | InvalidFormat
  | SigningFailed
  | VerificationFailed
deriving DecidableEq, Repr

/-- `SignatureResponse` from rpc_client.rs (`signmessage` reply). -/
structure SignatureResponse where
  hash : List Char
  signature : List Char
deriving DecidableEq, Repr

/-- Classification of a `reqwest::Error` as queried by the
`From<reqwest::Error> for VerusRpcError` impl in rpc_client.rs:
which of `is_timeout` / `is_connect` / `is_request` holds; `statusErr` is
the error produced by `error_for_status` on a non-success status, `decodeErr`
a body-deserialisation failure (neither is a timeout/connect/request error). -/
inductive ReqErrKind where
  | timeoutErr (msg : List Char)
  | connectErr (msg : List Char)
  | requestErr (msg : List Char)
  | statusErr (msg : List Char)
  | decodeErr (msg : List Char)
deriving DecidableEq, Repr

/-- The `From<reqwest::Error> for VerusRpcError` impl in rpc_client.rs. -/
def fromReqwestErr (e : ReqErrKind) : VerusRpcError :=
  match e with
  | .timeoutErr _ => .Timeout
  | .connectErr m => .NetworkError m
  | .requestErr m => .NetworkError m
  | .statusErr m => .ParseError m
  | .decodeErr m => .ParseError m

/-- Outcome of deserialising the HTTP body as `RpcResponse<T>`:
either a deserialisation error, or the parsed envelope with its optional
`result` and optional `error {code, message}` fields. -/
inductive RpcBody (α : Type) where
  | deserializeFail (e : ReqErrKind)
  | envelope (result : Option α) (error : Option (Int × List Char))
deriving DecidableEq

/-- Outcome of `request.send()` in `make_rpc_call`: either a `reqwest`
error, or an HTTP response with a status code and a body. -/
inductive HttpResult (α : Type) where
  | sendFail (e : ReqErrKind)
  | response (status : Nat) (body : RpcBody α)
deriving DecidableEq

/-- The HTTP request `make_rpc_call` builds before sending. -/
structure RpcRequest where
  url : List Char
  user : List Char
  pass : List Char
  method : List Char
  params : List (List Char)
  timeoutSecs : Nat
deriving DecidableEq, Repr

/-- Outcome classification of `make_rpc_call` from rpc_client.rs: HTTP 401 is
special-cased to `Rpc{code:401}` before `error_for_status`; any other
non-success status becomes the `error_for_status` error run through the
`From<reqwest::Error>` mapping; on a 2xx body, a present `result` wins, else a
present `error` becomes `Rpc{code,message}`, else `Format`. The request itself
is built by `makeRpcCall` below — note its URL is the hard-coded
`http://localhost:18843`; the function takes no port. -/
def rpcOutcome (α : Type) (h : HttpResult α) : Res VerusRpcError α :=
  match h with
  | .sendFail e => .err (fromReqwestErr e)
  | .response status body =>
    if status = 401 then
      .err (.Rpc 401 (lc "Authentication failed."))
    else if 200 ≤ status ∧ status < 300 then
      match body with
      | .deserializeFail e => .err (fromReqwestErr e)
      | .envelope result error =>
        match result with
        | some r => .ok r
        | none =>
          match error with
          | some (code, message) => .err (.Rpc code message)
          | none => .err VerusRpcError.Format
    else
      .err (fromReqwestErr (.statusErr (lc "status error")))

/-- `make_rpc_call` proper: the request paired with the classified outcome. -/
def makeRpcCall (α : Type) (user pass method : List Char) (params : List (List Char))
    (h : HttpResult α) : RpcRequest × Res VerusRpcError α :=
  ({ url := lc "http://localhost:18843", user := user, pass := pass,
     method := method, params := params, timeoutSecs := 10 },
   rpcOutcome α h)

/-- `sign_message` from rpc_client.rs: any failure of the underlying
`signmessage` RPC is collapsed into `SigningFailed`. `raw` is the outcome of
`make_rpc_call::<SignatureResponse>` for the given identity and message. -/
def signMessageWrap (raw : Res VerusRpcError SignatureResponse) :
    Res VerusRpcError SignatureResponse :=
  match raw with
  | .ok s => .ok s
  | .err _ => .err VerusRpcError.SigningFailed

/-- `verify_message` from rpc_client.rs: a transport error of the underlying
`verifymessage` RPC is swallowed and returned as `Ok(false)`.
`rawVerify id sig msg` is the outcome of `make_rpc_call::<bool>` on
`verifymessage(id, sig, msg)`. -/
def verifyMessageWrap (rawVerify : List Char → List Char → List Char → Res VerusRpcError Bool)
    (id sig msg : List Char) : Res VerusRpcError Bool :=
  match rawVerify id sig msg with
  | .ok b => .ok b
  | .err _ => .ok false

/-! ## Messaging protocol (message_rpc.rs) -/

/-- `ChatMessage` from message_rpc.rs. -/
structure ChatMessage where
  id : List Char
  sender : List Char
  text : List Char
  timestamp : Nat
  amount : ℚ
  confirmations : Int
  direction : List Char
deriving DecidableEq, Repr

/-- `ReceivedByAddressEntry` from message_rpc.rs (one `z_listreceivedbyaddress`
item). -/
structure ReceivedByAddressEntry where
  txid : List Char
  amount : ℚ
  confirmations : Int
  memostr : Option (List Char)
deriving DecidableEq, Repr

/-- The unsigned base string `{text}//f//{identity}//t//{timestamp}` that is
signed on send and reconstructed for verification on receive
(`format!` in message_rpc.rs, with the timestamp rendered from the `u64`). -/
def baseMessage (text idn : List Char) (ts : Nat) : List Char :=
  text ++ fMark ++ idn ++ tMark ++ natRepr ts

/-- The full signed memo `{text}//f//{identity}//t//{timestamp}//{signature}`
built by `send_private_message`. -/
def fullMemo (text idn : List Char) (ts : Nat) (sig : List Char) : List Char :=
  baseMessage text idn ts ++ sMark ++ sig

/-- The pure parsing part of `parse_and_verify_message`: locate the first
`//f//`, then the first `//t//` in the remainder, then the first `//` in the
remainder; trim each segment as the source does; parse the timestamp strictly
as `u64`. Returns `(message_text, sender_id, timestamp, signature)`. -/
def parseMemo (memo : List Char) : Option (List Char × List Char × Nat × List Char) :=
  match splitOnFirst fMark memo with
  | none => none
  | some (pre, rest1) =>
    match splitOnFirst tMark rest1 with
    | none => none
    | some (idPart, rest2) =>
      match splitOnFirst sMark rest2 with
      | none => none
      | some (tsPart, sigPart) =>
        match parseU64 (trimL tsPart) with
        | none => none
        | some ts => some (trimL pre, trimL idPart, ts, trimL sigPart)

/-- `parse_and_verify_message` from message_rpc.rs: parse the memo, rebuild the
base string from the parsed (trimmed) components, then gate on the signature
verification; `Ok(false)` and `Err(_)` from the verification call both yield
`none` (silent omission), and no error is ever raised to the caller — the
return type has no error channel. -/
def parseAndVerifyMessage
    (rawVerify : List Char → List Char → List Char → Res VerusRpcError Bool)
    (memo : List Char) : Option (List Char × List Char × Nat × List Char) :=
  match parseMemo memo with
  | none => none
  | some (t, i, ts, sg) =>
    match verifyMessageWrap rawVerify i sg (baseMessage t i ts) with
    | .ok true => some (t, i, ts, sg)
    | .ok false => none
    | .err _ => none

/-- Stable insertion step used to model Rust `Vec::sort_by_key` (a stable
sort): an element is inserted after all elements whose key is not greater. -/
def insByKey {α : Type} (key : α → Nat) (x : α) : List α → List α
  | [] => [x]
  | y :: ys => if key x ≤ key y then x :: y :: ys else y :: insByKey key x ys

/-- Stable sort by a `Nat` key, modelling Rust `Vec::sort_by_key`. -/
def sortByKey {α : Type} (key : α → Nat) (l : List α) : List α :=
  l.foldr (insByKey key) []

/-- Processing loop of `get_chat_history` (message_rpc.rs): keep each
transaction that has a memo which parses and verifies and whose recovered
sender equals the requested `target`; the `ChatMessage` uses the target as
sender, the transaction id, amount and confirmations, and the recovered text
and timestamp, direction `"received"`. Listing order is preserved here. -/
def historyProcess
    (rawVerify : List Char → List Char → List Char → Res VerusRpcError Bool)
    (target : List Char) (txs : List ReceivedByAddressEntry) : List ChatMessage :=
  txs.filterMap (fun tx =>
    match tx.memostr with
    | none => none
    | some memo =>
      match parseAndVerifyMessage rawVerify memo with
      | none => none
      | some (t, i, ts, _sg) =>
        if i = target then
          some { id := tx.txid, sender := target, text := t, timestamp := ts,
                 amount := tx.amount, confirmations := tx.confirmations,
                 direction := lc "received" }
        else none)

/-- `get_chat_history` from message_rpc.rs: a listing failure propagates; on
success the processed messages are sorted ascending by timestamp
(`sort_by_key(|m| m.timestamp)`). `listing` is the outcome of the
`z_listreceivedbyaddress` call. -/
def getChatHistory
    (rawVerify : List Char → List Char → List Char → Res VerusRpcError Bool)
    (target : List Char)
    (listing : Res VerusRpcError (List ReceivedByAddressEntry)) :
    Res VerusRpcError (List ChatMessage) :=
  match listing with
  | .err e => .err e
  | .ok txs => .ok (sortByKey (fun m => m.timestamp) (historyProcess rawVerify target txs))

/-- Sender-identity syntactic validity from `get_new_received_messages`:
`sender_id.ends_with('@') && sender_id.len() > 1`. -/
def isValidSender (i : List Char) : Bool :=
  (match i.getLast? with
   | some c => c = '@'
   | none => false) && decide (1 < i.length)

/-- Processing loop of `get_new_received_messages` (message_rpc.rs): keep each
transaction whose memo parses and verifies, whose recovered sender is
syntactically valid, and which has non-empty text or a strictly positive
amount. The sender of the message is the recovered identity. No sorting:
listing order is preserved (the source comments that the frontend sorts). -/
def pollProcess
    (rawVerify : List Char → List Char → List Char → Res VerusRpcError Bool)
    (txs : List ReceivedByAddressEntry) : List ChatMessage :=
  txs.filterMap (fun tx =>
    match tx.memostr with
    | none => none
    | some memo =>
      match parseAndVerifyMessage rawVerify memo with
      | none => none
      | some (t, i, ts, _sg) =>
        if isValidSender i ∧ (t ≠ [] ∨ 0 < tx.amount) then
          some { id := tx.txid, sender := i, text := t, timestamp := ts,
                 amount := tx.amount, confirmations := tx.confirmations,
                 direction := lc "received" }
        else none)

/-- `get_new_received_messages` from message_rpc.rs: an `Rpc` listing error
with code -8 is replaced by an empty transaction list (so the call returns
`Ok` with no messages); any other listing error propagates; otherwise the
polling filter runs over the listed transactions in listing order. -/
def getNewReceivedMessages
    (rawVerify : List Char → List Char → List Char → Res VerusRpcError Bool)
    (listing : Res VerusRpcError (List ReceivedByAddressEntry)) :
    Res VerusRpcError (List ChatMessage) :=
  match listing with
  | .err (.Rpc code _message) =>
    if code = -8 then .ok (pollProcess rawVerify [])
    else .err (.Rpc code _message)
  | .err e => .err e
  | .ok txs => .ok (pollProcess rawVerify txs)

/-- `send_private_message` from message_rpc.rs. `signRaw` is the outcome of
the underlying `signmessage` RPC over the base string (before `sign_message`
collapses errors to `SigningFailed`); `sendRaw` the outcome of `z_sendmany`.
Returns the result, whether the `z_sendmany` RPC was invoked, and the memo
submitted to it (the hex-encoding step is length-preserving plumbing and the
daemon hands back the decoded string, so the memo is modelled in the clear). -/
def sendPrivateMessage (memoText senderIdentity : List Char) (ts : Nat)
    (signRaw : Res VerusRpcError SignatureResponse)
    (sendRaw : Res VerusRpcError (List Char)) :
    Res VerusRpcError (List Char) × Bool × Option (List Char) :=
  match signMessageWrap signRaw with
  | .err _ => (.err VerusRpcError.SigningFailed, false, none)
  | .ok sig =>
    let memo := fullMemo memoText senderIdentity ts sig.signature
    (match sendRaw with
     | .ok txid => .ok txid
     | .err e => .err e, true, some memo)

/-! ## Credential discovery and blockchain detection (credentials.rs) -/

/-- Outcome kind of `fs::read_to_string` when it fails (`ErrorKind` split the
source makes). -/
inductive FsError where
  | permDenied
  | ioErr (msg : List Char)
deriving DecidableEq, Repr

/-- `DiscoveryError` from credentials.rs. -/
inductive DiscoveryError where
  | NotFound
  | ParseError (msg : List Char)
  | PermissionDenied
  | IoError (msg : List Char)
deriving DecidableEq, Repr

/-- `Credentials` from credentials.rs (`rpc_port` is a `u16`, always produced
by `parseU16`). -/
structure Credentials where
  rpc_user : List Char
  rpc_pass : List Char
  rpc_port : Nat
deriving DecidableEq, Repr

/-- `BlockchainConfig` from credentials.rs. -/
structure BlockchainConfig where
  id : List Char
  name : List Char
  chain_string : Option (List Char)
  config_file_name : List Char
deriving DecidableEq, Repr

/-- `BlockchainStatus` from credentials.rs. -/
inductive BlockchainStatus where
  | Available
  | Loading
  | Error
  | NotFound
  | Timeout
  | ParseError
deriving DecidableEq, Repr

/-- `BlockchainDetectionResult` from credentials.rs. -/
structure BlockchainDetectionResult where
  blockchain_id : List Char
  blockchain_name : List Char
  status : BlockchainStatus
  credentials : Option Credentials
  config_path : Option (List Char)
  error_message : Option (List Char)
  block_height : Option Nat
deriving DecidableEq, Repr

/-- `ParallelDetectionResult` from credentials.rs. -/
structure ParallelDetectionResult where
  blockchains : List BlockchainDetectionResult
  total_detected : Nat
  detection_duration_ms : Nat
deriving DecidableEq, Repr

/-- `get_blockchain_configs` from credentials.rs: the static ordered catalog. -/
def getBlockchainConfigs : List BlockchainConfig :=
  [{ id := lc "verus", name := lc "Verus", chain_string := none,
     config_file_name := lc "VRSC.conf" },
   { id := lc "chips", name := lc "CHIPS",
     chain_string := some (lc "f315367528394674d45277e369629605a1c3ce9f"),
     config_file_name := lc "f315367528394674d45277e369629605a1c3ce9f.conf" },
   { id := lc "vdex", name := lc "vDEX",
     chain_string := some (lc "53fe39eea8c06bba32f1a4e20db67e5524f0309d"),
     config_file_name := lc "53fe39eea8c06bba32f1a4e20db67e5524f0309d.conf" },
   { id := lc "varrr", name := lc "vARRR",
     chain_string := some (lc "e9e10955b7d16031e3d6f55d9c908a038e3ae47d"),
     config_file_name := lc "e9e10955b7d16031e3d6f55d9c908a038e3ae47d.conf" },
   { id := lc "verus-testnet", name := lc "Verus Testnet", chain_string := none,
     config_file_name := lc "vrsctest.conf" }]

/-- One line step of the `parse_config_file` loop: trim, skip blank and `#`
lines, split on the first `=`, and record `rpcuser` / `rpcpassword` /
`rpcport` (the port through `value.parse::<u16>().ok()`, so a later bad
`rpcport` line overwrites an earlier good one with `none`). -/
def configLineStep (st : Option (List Char) × Option (List Char) × Option Nat)
    (line : List Char) : Option (List Char) × Option (List Char) × Option Nat :=
  let l := trimL line
  if l = [] then st
  else if l.head? = some '#' then st
  else
    match splitOnFirst ['='] l with
    | none => st
    | some (k, v) =>
      let key := trimL k
      let value := trimL v
      if key = lc "rpcuser" then (some value, st.2.1, st.2.2)
      else if key = lc "rpcpassword" then (st.1, some value, st.2.2)
      else if key = lc "rpcport" then (st.1, st.2.1, parseU16 value)
      else st

/-- The parsing part of `parse_config_file` over the file's lines. -/
def parseConfigLines (lines : List (List Char)) : Res DiscoveryError Credentials :=
  match lines.foldl configLineStep (none, none, none) with
  | (some u, some p, some port) => .ok { rpc_user := u, rpc_pass := p, rpc_port := port }
  | (some _, some _, none) => .err (.ParseError (lc "Missing rpcport in config file"))
  | _ => .err (.ParseError (lc "Missing rpcuser, rpcpassword, or rpcport"))

/-- `parse_config_file` from credentials.rs: a read failure maps to
`PermissionDenied` / `IoError`, otherwise the content's lines are parsed. -/
def parseConfigFile (read : Res FsError (List (List Char))) :
    Res DiscoveryError Credentials :=
  match read with
  | .err .permDenied => .err DiscoveryError.PermissionDenied
  | .err (.ioErr m) => .err (.IoError m)
  | .ok lines => parseConfigLines lines

/-- State of one candidate config path on disk: the path either does not
exist, or exists and reading it yields `read` (the file's lines, or an IO
error). -/
inductive PathState where
  | absent (path : List Char)
  | present (path : List Char) (read : Res FsError (List (List Char)))
deriving DecidableEq

/-- The `for path in standard_paths` loop head: the first existing candidate
path, with its read outcome (later paths are never consulted). -/
def firstPresent : List PathState → Option (List Char × Res FsError (List (List Char)))
  | [] => none
  | .absent _ :: rest => firstPresent rest
  | .present p read :: _ => some (p, read)

/-- The JSON `error` field of the probe response body: absent, JSON `null`,
or an error object with its optional integer `code`, optional string
`message`, and its raw textual rendering (what `format!` prints). -/
inductive JErrField where
  | missing
  | nullErr
  | errObj (code : Option Int) (message : Option (List Char)) (raw : List Char)
deriving DecidableEq

/-- Body of the probe's HTTP response: reading the text may fail, the text may
not parse as JSON, or it parses with an `error` field and an optional numeric
`result`. -/
inductive ProbeBody where
  | textFail (msg : List Char)
  | notJson (msg : List Char)
  | jsonBody (error : JErrField) (result : Option Nat)
deriving DecidableEq

/-- Outcome of the probe's HTTP round trip in `test_daemon_connection`. -/
inductive ProbeHttp where
  | sendFail (msg : List Char)
  | response (status : Nat) (body : ProbeBody)
deriving DecidableEq

/-- HTTP 2xx. -/
def statusSuccess (s : Nat) : Bool := 200 ≤ s ∧ s < 300

/-- The URL `test_daemon_connection` posts to: built from the discovered
`rpc_port` (unlike `make_rpc_call`). -/
def testDaemonUrl (c : Credentials) : List Char :=
  lc "http://127.0.0.1:" ++ natRepr c.rpc_port

/-- `test_daemon_connection` from credentials.rs: non-2xx statuses other than
500 fail immediately; otherwise the JSON body is inspected; a non-null `error`
with code -28 becomes a `LOADING:`-tagged error (keeping the daemon's message,
defaulting to `Daemon is starting up...`), any other non-null `error` a
`RPC error:` failure; a 500 without structured error info fails; otherwise
the numeric `result` is the block height. -/
def testDaemonConnection (h : ProbeHttp) : Res (List Char) Nat :=
  match h with
  | .sendFail m => .err (lc "HTTP request failed: " ++ m)
  | .response status body =>
    if ¬ statusSuccess status ∧ status ≠ 500 then
      .err (lc "HTTP " ++ natRepr status ++ lc " - Daemon may not be running")
    else
      match body with
      | .textFail m => .err (lc "Failed to read response text: " ++ m)
      | .notJson m => .err (lc "Failed to parse JSON response: " ++ m)
      | .jsonBody ef result =>
        match ef with
        | .errObj code message raw =>
          if code = some (-28) then
            .err (loadingTag ++ message.getD (lc "Daemon is starting up..."))
          else .err (lc "RPC error: " ++ raw)
        | .missing =>
          if status = 500 then .err (lc "HTTP 500 - Daemon may not be running properly")
          else
            match result with
            | some n => .ok n
            | none => .err (lc "Invalid block count in response")
        | .nullErr =>
          if status = 500 then .err (lc "HTTP 500 - Daemon may not be running properly")
          else
            match result with
            | some n => .ok n
            | none => .err (lc "Invalid block count in response")

/-- `DETECTION_TIMEOUT_SECS` from credentials.rs: the probe deadline. -/
def DETECTION_TIMEOUT_SECS : Nat := 8

/-- Outcome of `tokio::time::timeout(8s, test_daemon_connection(..))`: either
the deadline expired, or the probe's HTTP interaction completed. -/
inductive ProbeEnv where
  | timedOut
  | completed (h : ProbeHttp)
deriving DecidableEq

/-- Environment one `detect_single_blockchain` run observes: the state of its
candidate config paths (in priority order, as returned by
`get_standard_config_paths`) and the probe outcome. -/
structure DetectEnv where
  paths : List PathState
  probe : ProbeEnv

/-- The `thiserror` `Display` rendering of `DiscoveryError`
(`e.to_string()` in `detect_single_blockchain`). -/
def discoveryErrorText (e : DiscoveryError) : List Char :=
  match e with
  | .NotFound => lc "Config file not found in standard locations"
  | .ParseError m => lc "Failed to parse config file: " ++ m
  | .PermissionDenied => lc "Permission denied accessing config file"
  | .IoError m => lc "IO error: " ++ m

/-- `detect_single_blockchain` from credentials.rs. The returned `Bool` is
instrumentation recording whether the daemon probe was reached. Walk the
candidate paths: no existing file yields `NotFound` without probing; the first
existing file is parsed, a parse failure yields `ParseError` without probing;
otherwise the probe runs under the timeout: expiry yields `Timeout`, a
`LOADING:`-tagged probe error yields `Loading` (credentials kept), any other
probe error yields `Error`, and a height yields `Available`. -/
def detectSingleBlockchain (c : BlockchainConfig) (env : DetectEnv) :
    BlockchainDetectionResult × Bool :=
  match firstPresent env.paths with
  | none =>
    ({ blockchain_id := c.id, blockchain_name := c.name,
       status := BlockchainStatus.NotFound, credentials := none, config_path := none,
       error_message := some (lc "No configuration file found in standard locations"),
       block_height := none }, false)
  | some (path, read) =>
    match parseConfigFile read with
    | .err e =>
      ({ blockchain_id := c.id, blockchain_name := c.name,
         status := BlockchainStatus.ParseError, credentials := none,
         config_path := some path,
         error_message := some (discoveryErrorText e), block_height := none }, false)
    | .ok creds =>
      match env.probe with
      | .timedOut =>
        ({ blockchain_id := c.id, blockchain_name := c.name,
           status := BlockchainStatus.Timeout, credentials := some creds,
           config_path := some path,
           error_message := some (lc "Connection timeout - daemon may not be running"),
           block_height := none }, true)
      | .completed h =>
        match testDaemonConnection h with
        | .ok height =>
          ({ blockchain_id := c.id, blockchain_name := c.name,
             status := BlockchainStatus.Available, credentials := some creds,
             config_path := some path, error_message := none,
             block_height := some height }, true)
        | .err e =>
          if startsWithL loadingTag e then
            ({ blockchain_id := c.id, blockchain_name := c.name,
               status := BlockchainStatus.Loading, credentials := some creds,
               config_path := some path,
               error_message := some (e.drop loadingTag.length), block_height := none }, true)
          else
            ({ blockchain_id := c.id, blockchain_name := c.name,
               status := BlockchainStatus.Error, credentials := some creds,
               config_path := some path,
               error_message := some (lc "Connection failed: " ++ e),
               block_height := none }, true)

/-- The synthetic entry `detect_all_blockchains` builds for a failed task
(`JoinError` with rendering `m`), and the identity on a completed task. -/
def taskEntry (o : Res (List Char) BlockchainDetectionResult) : BlockchainDetectionResult :=
  match o with
  | .ok r => r
  | .err m =>
    { blockchain_id := lc "unknown", blockchain_name := lc "Unknown",
      status := BlockchainStatus.Error, credentials := none, config_path := none,
      error_message := some (lc "Task execution failed: " ++ m), block_height := none }

/-- The static id order `detect_all_blockchains` sorts by. -/
def catalogOrderIds : List (List Char) :=
  [lc "verus", lc "chips", lc "vdex", lc "varrr", lc "verus-testnet"]

/-- `Iterator::position` over a list. -/
def posIn (l : List (List Char)) (x : List Char) : Option Nat :=
  match l with
  | [] => none
  | y :: ys => if y = x then some 0 else (posIn ys x).map (fun n => n + 1)

/-- The sort key of `detect_all_blockchains`:
`order.iter().position(|&id| id == r.blockchain_id).unwrap_or(999)`. -/
def detectSortKey (r : BlockchainDetectionResult) : Nat :=
  (posIn catalogOrderIds r.blockchain_id).getD 999

/-- `detect_all_blockchains` from credentials.rs, from the join point on:
`completed` is the list of task outcomes in completion order
(`join_set.join_next()` order, nondeterministic); a failed task contributes a
synthetic `Error` entry instead of aborting; the collected entries are then
stable-sorted by catalog position, and `total_detected` counts the `Available`
entries. The wall-clock duration is an input. -/
def detectAllBlockchains (completed : List (Res (List Char) BlockchainDetectionResult))
    (durationMs : Nat) : ParallelDetectionResult :=
  let results := sortByKey detectSortKey (completed.map taskEntry)
  { blockchains := results,
    total_detected :=
      (results.filter (fun r => r.status = BlockchainStatus.Available)).length,
    detection_duration_ms := durationMs }

/-- Whether a collected task outcome is a failed task. -/
def isErrTask (o : Res (List Char) BlockchainDetectionResult) : Bool :=
  match o with
  | .err _ => true
  | .ok _ => false

/-- How many catalog tasks a task behaviour `g` fails. -/
def failCount (g : BlockchainConfig → Res (List Char) BlockchainDetectionResult) : Nat :=
  (getBlockchainConfigs.filter (fun c => isErrTask (g c))).length

/-- The catalog position a config's own id sorts to. -/
def catalogKeyOfId (c : BlockchainConfig) : Nat :=
  (posIn catalogOrderIds c.id).getD 999

/-! ## Concrete fixtures used by witnesses and counterexamples -/

/-- A verification oracle that always answers `true` (a daemon accepting the
signature). -/
def okVerify : List Char → List Char → List Char → Res VerusRpcError Bool :=
  fun _ _ _ => Res.ok true

/-- A received transaction whose memo carries timestamp 5. -/
def cxTxLate : ReceivedByAddressEntry :=
  { txid := lc "tx1", amount := 1, confirmations := 2,
    memostr := some (lc "a//f//al@//t//5//SG") }

/-- A received transaction whose memo carries timestamp 3. -/
def cxTxEarly : ReceivedByAddressEntry :=
  { txid := lc "tx2", amount := 1, confirmations := 9,
    memostr := some (lc "b//f//al@//t//3//SG") }

/-- A detection environment with no config file anywhere. -/
def cxDetectEnv : DetectEnv := { paths := [], probe := ProbeEnv.timedOut }

/-- A task behaviour where the verus and chips tasks fail (with the distinct
renderings two different `JoinError`s carry) and the rest complete. -/
def cxTask (c : BlockchainConfig) : Res (List Char) BlockchainDetectionResult :=
  if c.id = lc "verus" then .err (lc "task 1 panicked")
  else if c.id = lc "chips" then .err (lc "task 2 panicked")
  else .ok (detectSingleBlockchain c cxDetectEnv).1

/-- Completion order one: catalog order. -/
def cxPerm1 : List BlockchainConfig := getBlockchainConfigs

/-- Completion order two: the first two tasks swapped. -/
def cxPerm2 : List BlockchainConfig :=
  match getBlockchainConfigs with
  | a :: b :: rest => b :: a :: rest
  | l => l

/-- A probe response carrying RPC error code -28 (daemon loading). -/
def probeLoading : ProbeEnv :=
  ProbeEnv.completed (.response 200
    (.jsonBody (.errObj (some (-28)) (some (lc "Loading block index...")) (lc "code -28")) none))

/-- A detection environment with one readable, parseable config and a loading
daemon. -/
def c4EnvLoading : DetectEnv :=
  { paths := [PathState.present (lc "/home/u/.komodo/VRSC/VRSC.conf")
      (.ok [lc "rpcuser=u", lc "rpcpassword=p", lc "rpcport=27486"])],
    probe := probeLoading }

/-! ## Claim theorems -/

/-- Claim C1: a `ChatMessage` candidate is produced by
`parse_and_verify_message` if and only if the memo parses structurally (all
three markers present, numeric timestamp) and the daemon's `verifymessage`
call over the reconstructed base string returns `true` for the claimed
sender. A missing `//f//`, `//t//` or `//` marker or a non-numeric timestamp
makes `parseMemo` return `none`, and a `false` verification answer or a
verification transport error (swallowed by `verify_message`) falls outside
the right-hand side — in every such case the function returns `none`, and its
return type has no error channel, so no error reaches the caller. -/
theorem chat_message_iff_verify_true
    (rawVerify : List Char → List Char → List Char → Res VerusRpcError Bool)
    (memo t i : List Char) (ts : Nat) (sg : List Char) :
    parseAndVerifyMessage rawVerify memo = some (t, i, ts, sg) ↔
      (parseMemo memo = some (t, i, ts, sg) ∧
        rawVerify i sg (baseMessage t i ts) = .ok true) := by
  cases hp : parseMemo memo with
  | none => simp [parseAndVerifyMessage, hp]
  | some q =>
    obtain ⟨t2, i2, ts2, sg2⟩ := q
    cases hv : rawVerify i2 sg2 (baseMessage t2 i2 ts2) with
    | ok b =>
      cases b with
      | false =>
        simp only [parseAndVerifyMessage, hp, verifyMessageWrap, hv]
        constructor
        · intro h; exact Option.noConfusion h
        · rintro ⟨h1, h2⟩
          obtain ⟨rfl, rfl, rfl, rfl⟩ : t2 = t ∧ i2 = i ∧ ts2 = ts ∧ sg2 = sg := by
            simpa using h1
          rw [hv] at h2
          exact Res.noConfusion h2 (fun hb => Bool.noConfusion hb)
      | true =>
        simp only [parseAndVerifyMessage, hp, verifyMessageWrap, hv]
        constructor
        · intro h
          obtain ⟨rfl, rfl, rfl, rfl⟩ : t2 = t ∧ i2 = i ∧ ts2 = ts ∧ sg2 = sg := by
            simpa using h
          exact ⟨rfl, hv⟩
        · rintro ⟨h1, _⟩; exact h1
    | err ev =>
      simp only [parseAndVerifyMessage, hp, verifyMessageWrap, hv]
      constructor
      · intro h; exact Option.noConfusion h
      · rintro ⟨h1, h2⟩
        obtain ⟨rfl, rfl, rfl, rfl⟩ : t2 = t ∧ i2 = i ∧ ts2 = ts ∧ sg2 = sg := by
          simpa using h1
        rw [hv] at h2
        exact Res.noConfusion h2

/-- Claim C2: if the underlying `signmessage` RPC fails, `send_private_message`
returns `SigningFailed` and the `z_sendmany` RPC is never invoked; conversely
the send RPC is reached only when signing succeeded. -/
theorem signing_failure_blocks_send (memoText senderIdentity : List Char) (ts : Nat)
    (signRaw : Res VerusRpcError SignatureResponse)
    (sendRaw : Res VerusRpcError (List Char)) :
    (∀ e, signRaw = .err e →
      sendPrivateMessage memoText senderIdentity ts signRaw sendRaw =
        (.err VerusRpcError.SigningFailed, false, none)) ∧
    ((sendPrivateMessage memoText senderIdentity ts signRaw sendRaw).2.1 = true →
      ∃ s, signRaw = .ok s) := by
  cases signRaw with
  | ok s =>
    constructor
    · intro e he; exact Res.noConfusion he
    · intro _; exact ⟨s, rfl⟩
  | err e =>
    constructor
    · intro e2 _; rfl
    · intro h
      simp [sendPrivateMessage, signMessageWrap] at h

/-- Witness for C2 at a concrete failing signing call. -/
theorem signing_failure_blocks_send_witness :
    sendPrivateMessage (lc "hi") (lc "al@") 5 (.err VerusRpcError.Timeout) (.ok (lc "tx")) =
      (.err VerusRpcError.SigningFailed, false, none) :=
  (signing_failure_blocks_send (lc "hi") (lc "al@") 5 (.err VerusRpcError.Timeout)
    (.ok (lc "tx"))).1 VerusRpcError.Timeout rfl

/-- Claim C7: in the any-sender polling path, a transaction whose memo parses
and verifies yields exactly one `ChatMessage` when the recovered sender is
syntactically valid and the text is non-empty or the amount strictly
positive, and nothing otherwise — in particular an empty-text, zero-amount
memo is dropped even though its signature verified. -/
theorem polling_accept_iff
    (rawVerify : List Char → List Char → List Char → Res VerusRpcError Bool)
    (tx : ReceivedByAddressEntry) (memo t i : List Char) (ts : Nat) (sg : List Char)
    (hm : tx.memostr = some memo)
    (hp : parseAndVerifyMessage rawVerify memo = some (t, i, ts, sg)) :
    pollProcess rawVerify [tx] =
      if isValidSender i ∧ (t ≠ [] ∨ 0 < tx.amount) then
        [{ id := tx.txid, sender := i, text := t, timestamp := ts, amount := tx.amount,
           confirmations := tx.confirmations, direction := lc "received" }]
      else [] := by
  by_cases hc : isValidSender i ∧ (t ≠ [] ∨ 0 < tx.amount) <;>
    simp [pollProcess, List.filterMap_cons, hm, hp, hc]

/-- Witness for C7: a verified non-empty-text zero-amount memo is kept, a
verified empty-text zero-amount memo is dropped. -/
theorem polling_accept_iff_witness :
    pollProcess okVerify
        [⟨lc "t1", 0, 0, some (lc "hi//f//al@//t//7//SG")⟩] =
      [⟨lc "t1", lc "al@", lc "hi", 7, 0, 0, lc "received"⟩] ∧
    pollProcess okVerify
        [⟨lc "t2", 0, 0, some (lc "//f//al@//t//7//SG")⟩] = [] := by
  constructor
  · rw [polling_accept_iff okVerify _ (lc "hi//f//al@//t//7//SG") (lc "hi") (lc "al@") 7
      (lc "SG") rfl (by decide)]
    decide
  · rw [polling_accept_iff okVerify _ (lc "//f//al@//t//7//SG") (lc "") (lc "al@") 7
      (lc "SG") rfl (by decide)]
    decide

/-- Claim C9: an HTTP 401 response is classified by the transport as the
structured error `Rpc{code: 401, ...}` — never as `NetworkError` — for every
request method, parameter list and body. -/
theorem http_401_maps_to_rpc401 (α : Type) (user pass method : List Char)
    (params : List (List Char)) (status : Nat) (body : RpcBody α)
    (hs : status = 401) :
    (makeRpcCall α user pass method params (.response status body)).2 =
      .err (.Rpc 401 (lc "Authentication failed.")) ∧
    ∀ m, (makeRpcCall α user pass method params (.response status body)).2 ≠
      .err (.NetworkError m) := by
  subst hs
  constructor
  · simp [makeRpcCall, rpcOutcome]
  · intro m
    simp [makeRpcCall, rpcOutcome]

/-- Witness for C9 at a concrete 401 response. -/
theorem http_401_maps_to_rpc401_witness :
    (makeRpcCall Nat (lc "u") (lc "p") (lc "getblockcount") []
        (.response 401 (.envelope none none))).2 =
      .err (.Rpc 401 (lc "Authentication failed.")) :=
  (http_401_maps_to_rpc401 Nat (lc "u") (lc "p") (lc "getblockcount") [] 401
    (.envelope none none) rfl).1

/-- Claim C10: a `z_listreceivedbyaddress` failure with RPC code -8 makes the
polling path return `Ok` with an empty message list; every other listing
error propagates unchanged. -/
theorem polling_minus8_swallowed
    (rawVerify : List Char → List Char → List Char → Res VerusRpcError Bool)
    (m : List Char) (e : VerusRpcError) :
    getNewReceivedMessages rawVerify (.err (.Rpc (-8) m)) = .ok [] ∧
    ((∀ m2, e ≠ VerusRpcError.Rpc (-8) m2) →
      getNewReceivedMessages rawVerify (.err e) = .err e) := by
  constructor
  · simp [getNewReceivedMessages, pollProcess]
  · intro he
    cases e with
    | Rpc c msg =>
      have hc : ¬ c = (-8 : Int) := by
        intro h
        exact he msg (by rw [h])
      simp [getNewReceivedMessages, hc]
    | NetworkError m2 => rfl
    | ParseError m2 => rfl
    | Timeout => rfl
    | Format => rfl
    | NotFoundOrIneligible => rfl
    | InvalidFormat => rfl
    | SigningFailed => rfl
    | VerificationFailed => rfl

/-- Witness for C10: code -8 is swallowed, a timeout propagates. -/
theorem polling_minus8_swallowed_witness :
    getNewReceivedMessages okVerify (.err (.Rpc (-8) (lc "no txs"))) = .ok [] ∧
    getNewReceivedMessages okVerify (.err VerusRpcError.Timeout) =
      .err VerusRpcError.Timeout := by
  constructor
  · exact (polling_minus8_swallowed okVerify (lc "no txs") VerusRpcError.Timeout).1
  · exact (polling_minus8_swallowed okVerify (lc "no txs") VerusRpcError.Timeout).2
      (fun m2 h => VerusRpcError.noConfusion h)

/-- Claim C8 (refuted — the code contradicts the claim): the transport's
`make_rpc_call` addresses every request to the hard-coded
`http://localhost:18843` whatever the credentials are; it does not even take a
port parameter. Yet `parse_config_file` refuses a config without `rpcport`,
every caller threads a discovered `rpc_port` toward the transport, and the
probe URL built from the same discovered credentials names that port — so a
config discovering port 27777 has no effect on the transport's target. -/
theorem transport_port_hardcoded :
    (∀ (α : Type) (user pass method : List Char) (params : List (List Char))
        (h : HttpResult α),
      (makeRpcCall α user pass method params h).1.url = lc "http://localhost:18843") ∧
    parseConfigFile (.ok [lc "rpcuser=alice", lc "rpcpassword=secret", lc "rpcport=27777"]) =
      .ok ⟨lc "alice", lc "secret", 27777⟩ ∧
    testDaemonUrl ⟨lc "alice", lc "secret", 27777⟩ = lc "http://127.0.0.1:27777" ∧
    lc "http://localhost:18843" ≠ lc "http://127.0.0.1:27777" := by
  refine ⟨fun α user pass method params h => rfl, by decide, by decide, by decide⟩

/-! ## String lemmas for the memo codec -/

theorem startsWithL_iff_take (p : List Char) : ∀ s : List Char,
    startsWithL p s = true ↔ s.take p.length = p := by
  induction p with
  | nil => intro s; simp [startsWithL]
  | cons a as ih =>
    intro s
    cases s with
    | nil => simp [startsWithL]
    | cons b bs =>
      simp only [startsWithL, List.length_cons, List.take_succ_cons, Bool.and_eq_true,
        decide_eq_true_eq, List.cons.injEq, ih bs]
      constructor
      · rintro ⟨rfl, h⟩; exact ⟨rfl, h⟩
      · rintro ⟨rfl, h⟩; exact ⟨rfl, h⟩

theorem startsWithL_append_self (p b : List Char) : startsWithL p (p ++ b) = true := by
  rw [startsWithL_iff_take, List.take_append_of_le_length (Nat.le_refl _), List.take_length]

theorem splitOnFirst_sound (pat : List Char) : ∀ (s a b : List Char),
    splitOnFirst pat s = some (a, b) → s = a ++ pat ++ b := by
  intro s
  induction s with
  | nil =>
    intro a b h
    cases pat with
    | nil =>
      simp only [splitOnFirst, startsWithL, if_pos, Option.some.injEq, Prod.mk.injEq] at h
      obtain ⟨rfl, rfl⟩ := h
      rfl
    | cons p ps => simp [splitOnFirst, startsWithL] at h
  | cons c cs ih =>
    intro a b h
    by_cases hsw : startsWithL pat (c :: cs) = true
    · simp only [splitOnFirst, hsw, if_pos] at h
      have hpair : (([] : List Char), (c :: cs).drop pat.length) = (a, b) :=
        Option.some.inj h
      obtain ⟨rfl, rfl⟩ : ([] : List Char) = a ∧ (c :: cs).drop pat.length = b :=
        ⟨congrArg Prod.fst hpair, congrArg Prod.snd hpair⟩
      have htake := (startsWithL_iff_take pat (c :: cs)).mp hsw
      calc c :: cs = (c :: cs).take pat.length ++ (c :: cs).drop pat.length :=
              (List.take_append_drop _ _).symm
        _ = [] ++ pat ++ (c :: cs).drop pat.length := by rw [htake]; rfl
    · have hmap : splitOnFirst pat (c :: cs) =
          Option.map (fun p => (c :: p.1, p.2)) (splitOnFirst pat cs) := by
        simp [splitOnFirst, hsw]
      cases hinner : splitOnFirst pat cs with
      | none => rw [hmap, hinner] at h; exact Option.noConfusion h
      | some p =>
        obtain ⟨a2, b2⟩ := p
        rw [hmap, hinner] at h
        have hpair : ((c :: a2 : List Char), b2) = (a, b) := Option.some.inj h
        obtain ⟨rfl, rfl⟩ : (c :: a2 : List Char) = a ∧ b2 = b :=
          ⟨congrArg Prod.fst hpair, congrArg Prod.snd hpair⟩
        rw [ih a2 b2 hinner]
        rfl

theorem hasOccur_nil_pat (s : List Char) : hasOccur [] s = true := by
  cases s <;> simp [hasOccur, splitOnFirst, startsWithL]

theorem hasOccur_cons_false (pat : List Char) (c : Char) (t : List Char)
    (h : hasOccur pat (c :: t) = false) : hasOccur pat t = false := by
  by_cases hsw : startsWithL pat (c :: t) = true
  · simp [hasOccur, splitOnFirst, hsw] at h
  · have hmap : splitOnFirst pat (c :: t) =
        Option.map (fun p => (c :: p.1, p.2)) (splitOnFirst pat t) := by
      simp [splitOnFirst, hsw]
    rw [hasOccur, hmap] at h
    cases hinner : splitOnFirst pat t with
    | none => simp [hasOccur, hinner]
    | some p => rw [hinner] at h; simp at h

theorem splitOnFirst_boundary (pat : List Char) (a b : List Char)
    (h : hasOccur pat (a ++ pat.dropLast) = false) :
    splitOnFirst pat (a ++ (pat ++ b)) = some (a, b) := by
  have hpatne : pat ≠ [] := by
    intro hp
    rw [hp] at h
    rw [show ([] : List Char).dropLast = [] from rfl, hasOccur_nil_pat] at h
    exact Bool.noConfusion h
  induction a with
  | nil =>
    obtain ⟨p0, pt, rfl⟩ : ∃ x xs, pat = x :: xs := List.exists_cons_of_ne_nil hpatne
    show splitOnFirst (p0 :: pt) (p0 :: (pt ++ b)) = some ([], b)
    have hsw : startsWithL (p0 :: pt) (p0 :: (pt ++ b)) = true := by
      have h2 := startsWithL_append_self (p0 :: pt) b
      rwa [List.cons_append] at h2
    have h3 : List.drop (p0 :: pt).length (p0 :: (pt ++ b)) = b := by
      have h4 := List.drop_left (p0 :: pt) b
      rwa [List.cons_append] at h4
    simp [splitOnFirst, hsw, h3]
  | cons c a2 ih =>
    have hsw : startsWithL pat (c :: (a2 ++ (pat ++ b))) = false := by
      cases hval : startsWithL pat (c :: (a2 ++ (pat ++ b)))
      · rfl
      · exfalso
        have hswt := hval
        have hlen1 : 1 ≤ pat.length := by
          cases pat with
          | nil => exact absurd rfl hpatne
          | cons x xs => simp
        have htake := (startsWithL_iff_take pat _).mp hswt
        have hmid : List.take (pat.length - 1) (pat ++ b) = pat.dropLast := by
          rw [List.take_append_of_le_length (by omega)]
          exact (List.dropLast_eq_take pat).symm
        have htrunc : (c :: a2) ++ pat.dropLast =
            (c :: (a2 ++ (pat ++ b))).take ((c :: a2).length + (pat.length - 1)) := by
          have h1 : (c :: (a2 ++ (pat ++ b))) = (c :: a2) ++ (pat ++ b) := by simp
          rw [h1, List.take_append, hmid]
        have hswtr : startsWithL pat ((c :: a2) ++ pat.dropLast) = true := by
          rw [startsWithL_iff_take, htrunc, List.take_take]
          have hmin : pat.length ⊓ ((c :: a2).length + (pat.length - 1)) = pat.length := by
            simp only [List.length_cons]
            omega
          rw [hmin, htake]
        have hocc : hasOccur pat ((c :: a2) ++ pat.dropLast) = true := by
          rw [List.cons_append] at hswtr ⊢
          simp [hasOccur, splitOnFirst, hswtr]
        rw [hocc] at h
        exact Bool.noConfusion h
    have h2 : hasOccur pat (a2 ++ pat.dropLast) = false :=
      hasOccur_cons_false pat c (a2 ++ pat.dropLast) (by simpa using h)
    have hrec := ih h2
    show splitOnFirst pat (c :: (a2 ++ (pat ++ b))) = some (c :: a2, b)
    simp [splitOnFirst, hsw, hrec]

theorem dropWhile_eq_self_of (p : Char → Bool) (l : List Char)
    (h : ∀ c ∈ l, p c = false) : l.dropWhile p = l := by
  cases l with
  | nil => rfl
  | cons c cs =>
    rw [List.dropWhile_cons, h c (List.mem_cons_self c cs)]
    simp

theorem trimL_eq_self_of (l : List Char) (h : ∀ c ∈ l, isWS c = false) : trimL l = l := by
  rw [trimL, dropWhile_eq_self_of isWS l h,
    dropWhile_eq_self_of isWS l.reverse (fun c hc => h c (List.mem_reverse.mp hc)),
    List.reverse_reverse]

theorem digitChar_spec (d : Nat) (hd : d < 10) :
    charDigit (digitChar d) = some d ∧ digitChar d ≠ '+' ∧ digitChar d ≠ '/' ∧
      isWS (digitChar d) = false := by
  interval_cases d <;> exact ⟨by decide, by decide, by decide, by decide⟩

theorem natReprAux_digits : ∀ (fuel n : Nat), n < fuel → ∀ c ∈ natReprAux fuel n,
    ∃ d, d < 10 ∧ c = digitChar d := by
  intro fuel
  induction fuel with
  | zero => intro n hn c _; exact absurd hn (Nat.not_lt_zero n)
  | succ f ih =>
    intro n hn c hc
    by_cases h10 : n < 10
    · simp only [natReprAux, if_pos h10, List.mem_singleton] at hc
      exact ⟨n, h10, hc⟩
    · simp only [natReprAux, if_neg h10, List.mem_append, List.mem_singleton] at hc
      cases hc with
      | inl hin =>
        have hdiv : n / 10 < n := Nat.div_lt_self (by omega) (by omega)
        exact ih (n / 10) (by omega) c hin
      | inr heq => exact ⟨n % 10, Nat.mod_lt n (by omega), heq⟩

theorem natRepr_digits (n : Nat) (c : Char) (h : c ∈ natRepr n) :
    ∃ d, d < 10 ∧ c = digitChar d :=
  natReprAux_digits (n + 1) n (Nat.lt_succ_self n) c h

theorem natReprAux_ne_nil : ∀ (fuel n : Nat), n < fuel → natReprAux fuel n ≠ [] := by
  intro fuel
  induction fuel with
  | zero => intro n hn; exact absurd hn (Nat.not_lt_zero n)
  | succ f _ =>
    intro n _
    by_cases h10 : n < 10
    · simp [natReprAux, if_pos h10]
    · simp [natReprAux, if_neg h10]

theorem parseNatCore_snoc (l : List Char) (c : Char) :
    parseNatCore (l ++ [c]) =
      (parseNatCore l).bind (fun a => (charDigit c).map (fun d => a * 10 + d)) := by
  simp [parseNatCore, List.foldl_append]

theorem parseNatCore_natReprAux : ∀ (fuel n : Nat), n < fuel →
    parseNatCore (natReprAux fuel n) = some n := by
  intro fuel
  induction fuel with
  | zero => intro n hn; exact absurd hn (Nat.not_lt_zero n)
  | succ f ih =>
    intro n hn
    by_cases h10 : n < 10
    · have hcd : charDigit (digitChar n) = some n := (digitChar_spec n h10).1
      simp [natReprAux, if_pos h10, parseNatCore, hcd]
    · have hdiv : n / 10 < n := Nat.div_lt_self (by omega) (by omega)
      have h1 := ih (n / 10) (by omega)
      have hcd : charDigit (digitChar (n % 10)) = some (n % 10) :=
        (digitChar_spec (n % 10) (Nat.mod_lt n (by omega))).1
      rw [natReprAux]
      rw [if_neg h10, parseNatCore_snoc, h1]
      simp [hcd]
      omega

theorem parseU64_natRepr (n : Nat) (hn : n < 2 ^ 64) : parseU64 (natRepr n) = some n := by
  have hne : natRepr n ≠ [] := natReprAux_ne_nil (n + 1) n (Nat.lt_succ_self n)
  obtain ⟨c, rest, hcr⟩ : ∃ c rest, natRepr n = c :: rest := by
    cases hh : natRepr n with
    | nil => exact absurd hh hne
    | cons c rest => exact ⟨c, rest, rfl⟩
  have hcmem : c ∈ natRepr n := by rw [hcr]; exact List.mem_cons_self _ _
  obtain ⟨d, hd, hc⟩ := natRepr_digits n c hcmem
  have hplus : ¬ c = '+' := by rw [hc]; exact (digitChar_spec d hd).2.1
  have hstrip : stripPlus (natRepr n) = natRepr n := by
    rw [hcr]; simp [stripPlus, hplus]
  have hcore : parseNatCore (natRepr n) = some n :=
    parseNatCore_natReprAux (n + 1) n (Nat.lt_succ_self n)
  simp only [parseU64, hstrip]
  rw [if_neg hne, hcore]
  show (if n < 2 ^ 64 then some n else none) = some n
  rw [if_pos hn]

theorem trimL_natRepr (n : Nat) : trimL (natRepr n) = natRepr n := by
  apply trimL_eq_self_of
  intro c hc
  obtain ⟨d, hd, hc2⟩ := natRepr_digits n c hc
  rw [hc2]
  exact (digitChar_spec d hd).2.2.2

theorem natRepr_no_early_sMark (n : Nat) :
    hasOccur sMark (natRepr n ++ sMark.dropLast) = false := by
  cases hval : hasOccur sMark (natRepr n ++ sMark.dropLast)
  · rfl
  · exfalso
    rw [hasOccur] at hval
    obtain ⟨⟨x, y⟩, hxy⟩ := Option.isSome_iff_exists.mp hval
    have hsound := splitOnFirst_sound sMark _ x y hxy
    have hmem : '/' ∉ natRepr n := by
      intro hm
      obtain ⟨d, hd, hc⟩ := natRepr_digits n '/' hm
      exact absurd hc.symm (digitChar_spec d hd).2.2.1
    have hcount : List.count '/' (natRepr n ++ sMark.dropLast) = 1 := by
      rw [List.count_append, List.count_eq_zero.mpr hmem]
      decide
    rw [hsound] at hcount
    rw [List.count_append, List.count_append] at hcount
    have h2 : List.count '/' sMark = 2 := by decide
    omega

/-- Claim C3: for valid `(text, identity, timestamp, signature)` — the text
holding no occurrence of `//f//` that would shadow the marker, the identity
none of `//t//`, the three parts free of leading/trailing whitespace (the
decoder trims), and the timestamp a `u64` — decoding the memo produced by the
encoder recovers exactly the same text, identity, timestamp and signature;
consequently the base string the decoder reconstructs is the very string that
was signed, so a verifier that accepts the true signature over it makes
`parse_and_verify_message` surface the message; and the memo
`send_private_message` submits after a successful signing is exactly that
encoding. -/
theorem memo_roundtrip (text idn sig : List Char) (ts : Nat)
    (hf : hasOccur fMark (text ++ fMark.dropLast) = false)
    (ht : hasOccur tMark (idn ++ tMark.dropLast) = false)
    (htx : trimL text = text) (hid : trimL idn = idn) (hsg : trimL sig = sig)
    (hts : ts < 2 ^ 64) :
    parseMemo (fullMemo text idn ts sig) = some (text, idn, ts, sig) ∧
    (∀ rawVerify, rawVerify idn sig (baseMessage text idn ts) = .ok true →
      parseAndVerifyMessage rawVerify (fullMemo text idn ts sig) =
        some (text, idn, ts, sig)) ∧
    (∀ (sr : SignatureResponse) (sendRaw : Res VerusRpcError (List Char)),
      sr.signature = sig →
      (sendPrivateMessage text idn ts (.ok sr) sendRaw).2.2 =
        some (fullMemo text idn ts sig)) := by
  have hshape : fullMemo text idn ts sig =
      text ++ (fMark ++ (idn ++ (tMark ++ (natRepr ts ++ (sMark ++ sig))))) := by
    simp [fullMemo, baseMessage, List.append_assoc]
  have hsplit1 : splitOnFirst fMark (fullMemo text idn ts sig) =
      some (text, idn ++ (tMark ++ (natRepr ts ++ (sMark ++ sig)))) := by
    rw [hshape]
    exact splitOnFirst_boundary fMark text _ hf
  have hsplit2 : splitOnFirst tMark (idn ++ (tMark ++ (natRepr ts ++ (sMark ++ sig)))) =
      some (idn, natRepr ts ++ (sMark ++ sig)) :=
    splitOnFirst_boundary tMark idn _ ht
  have hsplit3 : splitOnFirst sMark (natRepr ts ++ (sMark ++ sig)) =
      some (natRepr ts, sig) :=
    splitOnFirst_boundary sMark (natRepr ts) sig (natRepr_no_early_sMark ts)
  have hparse : parseMemo (fullMemo text idn ts sig) = some (text, idn, ts, sig) := by
    simp only [parseMemo, hsplit1, hsplit2, hsplit3, trimL_natRepr,
      parseU64_natRepr ts hts, htx, hid, hsg]
  refine ⟨hparse, ?_, ?_⟩
  · intro rawVerify hv
    simp [parseAndVerifyMessage, hparse, verifyMessageWrap, hv]
  · intro sr sendRaw hsr
    cases sendRaw <;> simp [sendPrivateMessage, signMessageWrap, hsr]

/-- Witness for C3 at a concrete message. -/
theorem memo_roundtrip_witness :
    parseMemo (fullMemo (lc "hola") (lc "alice@") 1700000000 (lc "AbCd")) =
      some (lc "hola", lc "alice@", 1700000000, lc "AbCd") ∧
    parseAndVerifyMessage okVerify
        (fullMemo (lc "hola") (lc "alice@") 1700000000 (lc "AbCd")) =
      some (lc "hola", lc "alice@", 1700000000, lc "AbCd") := by
  have h := memo_roundtrip (lc "hola") (lc "alice@") (lc "AbCd") 1700000000
    (by decide) (by decide) (by decide) (by decide) (by decide) (by decide)
  exact ⟨h.1, h.2.1 okVerify rfl⟩

/-! ## Lemmas about the stable sort model -/

theorem mem_insByKey {α : Type} (key : α → Nat) (x z : α) : ∀ l : List α,
    z ∈ insByKey key x l ↔ z = x ∨ z ∈ l := by
  intro l
  induction l with
  | nil => simp [insByKey]
  | cons y ys ih =>
    by_cases hle : key x ≤ key y
    · simp [insByKey, hle]
    · simp only [insByKey, hle, if_neg, not_false_eq_true, List.mem_cons, ih]
      tauto

theorem insByKey_perm {α : Type} (key : α → Nat) (x : α) : ∀ l : List α,
    (insByKey key x l).Perm (x :: l) := by
  intro l
  induction l with
  | nil => exact List.Perm.refl _
  | cons y ys ih =>
    by_cases hle : key x ≤ key y
    · simp only [insByKey, hle, if_pos]
      exact List.Perm.refl _
    · simp only [insByKey, hle, if_neg, not_false_eq_true]
      exact (ih.cons y).trans (List.Perm.swap x y ys)

theorem pairwise_insByKey {α : Type} (key : α → Nat) (x : α) : ∀ l : List α,
    l.Pairwise (fun a b => key a ≤ key b) →
    (insByKey key x l).Pairwise (fun a b => key a ≤ key b) := by
  intro l
  induction l with
  | nil => intro _; simp [insByKey]
  | cons y ys ih =>
    intro h
    obtain ⟨hy, hys⟩ := List.pairwise_cons.mp h
    by_cases hle : key x ≤ key y
    · simp only [insByKey, hle, if_pos]
      refine List.pairwise_cons.mpr ⟨?_, h⟩
      intro z hz
      cases List.mem_cons.mp hz with
      | inl hz2 => rw [hz2]; exact hle
      | inr hz2 => exact hle.trans (hy z hz2)
    · simp only [insByKey, hle, if_neg, not_false_eq_true]
      refine List.pairwise_cons.mpr ⟨?_, ih hys⟩
      intro z hz
      cases (mem_insByKey key x z ys).mp hz with
      | inl hz2 => rw [hz2]; omega
      | inr hz2 => exact hy z hz2

theorem sortByKey_perm {α : Type} (key : α → Nat) : ∀ l : List α,
    (sortByKey key l).Perm l := by
  intro l
  induction l with
  | nil => exact List.Perm.refl _
  | cons a l ih =>
    have h1 : sortByKey key (a :: l) = insByKey key a (sortByKey key l) := rfl
    rw [h1]
    exact (insByKey_perm key a (sortByKey key l)).trans (ih.cons a)

theorem sortByKey_pairwise {α : Type} (key : α → Nat) : ∀ l : List α,
    (sortByKey key l).Pairwise (fun a b => key a ≤ key b) := by
  intro l
  induction l with
  | nil => simp [sortByKey]
  | cons a l ih => exact pairwise_insByKey key a (sortByKey key l) ih

theorem eq_of_perm_pairwise_nodupkeys {α : Type} (key : α → Nat) :
    ∀ (l1 l2 : List α), l1.Perm l2 →
      l1.Pairwise (fun a b => key a ≤ key b) →
      l2.Pairwise (fun a b => key a ≤ key b) →
      (l1.map key).Nodup → l1 = l2 := by
  intro l1
  induction l1 with
  | nil =>
    intro l2 hp _ _ _
    exact (List.Perm.eq_nil hp.symm).symm
  | cons a t1 ih =>
    intro l2 hp h1 h2 hnd
    cases l2 with
    | nil => exact absurd (List.Perm.eq_nil hp) (List.cons_ne_nil a t1)
    | cons b t2 =>
      have hab : a = b := by
        by_contra hne
        have hamem : a ∈ b :: t2 := hp.mem_iff.mp (List.mem_cons_self a t1)
        have hbmem : b ∈ a :: t1 := hp.symm.mem_iff.mp (List.mem_cons_self b t2)
        have ha2 : a ∈ t2 := by
          cases List.mem_cons.mp hamem with
          | inl h => exact absurd h hne
          | inr h => exact h
        have hb1 : b ∈ t1 := by
          cases List.mem_cons.mp hbmem with
          | inl h => exact absurd h.symm hne
          | inr h => exact h
        have hab1 : key a ≤ key b := (List.pairwise_cons.mp h1).1 b hb1
        have hba : key b ≤ key a := (List.pairwise_cons.mp h2).1 a ha2
        have hk : key a = key b := Nat.le_antisymm hab1 hba
        have hmem : key a ∈ t1.map key := by
          rw [hk]
          exact List.mem_map_of_mem key hb1
        rw [List.map_cons, List.nodup_cons] at hnd
        exact hnd.1 hmem
      subst hab
      have ht : t1.Perm t2 := hp.cons_inv
      have htl := ih t2 ht (List.pairwise_cons.mp h1).2 (List.pairwise_cons.mp h2).2
        (by rw [List.map_cons, List.nodup_cons] at hnd; exact hnd.2)
      rw [htl]

theorem sortByKey_eq_of_perm {α : Type} (key : α → Nat) (l1 l2 : List α)
    (hp : l1.Perm l2) (hnd : (l1.map key).Nodup) :
    sortByKey key l1 = sortByKey key l2 := by
  apply eq_of_perm_pairwise_nodupkeys key
  · exact (sortByKey_perm key l1).trans (hp.trans (sortByKey_perm key l2).symm)
  · exact sortByKey_pairwise key l1
  · exact sortByKey_pairwise key l2
  · have hpm : ((sortByKey key l1).map key).Perm (l1.map key) :=
      (sortByKey_perm key l1).map key
    exact hpm.symm.nodup hnd

/-- Claim C6 as stated is false on the code: the any-sender polling path does
not sort — two verified memos listed with timestamps 5 then 3 come back in
listing order, descending. (`get_new_received_messages` ends with a comment
that the frontend sorts; only `get_chat_history` sorts.) -/
theorem polling_unsorted_counterexample :
    getNewReceivedMessages okVerify (.ok [cxTxLate, cxTxEarly]) =
      .ok [⟨lc "tx1", lc "al@", lc "a", 5, 1, 2, lc "received"⟩,
           ⟨lc "tx2", lc "al@", lc "b", 3, 1, 9, lc "received"⟩] ∧
    ¬ List.Pairwise (fun a b => a.timestamp ≤ b.timestamp)
        [(⟨lc "tx1", lc "al@", lc "a", 5, 1, 2, lc "received"⟩ : ChatMessage),
         ⟨lc "tx2", lc "al@", lc "b", 3, 1, 9, lc "received"⟩] := by
  constructor
  · rfl
  · intro h
    exact absurd ((List.pairwise_cons.mp h).1 _ (List.mem_cons_self _ _)) (by decide)

/-- Claim C6 (amended): the history-by-sender path returns its messages sorted
ascending by recovered timestamp, and — when the recovered timestamps are
distinct — that list is independent of the daemon's listing order; the
any-sender polling path performs no sorting and returns accepted messages in
listing order (the frontend is left to sort). Confirmation counts enter no
sort key. -/
theorem history_sorted_polling_listing_order :
    (∀ (rawVerify : List Char → List Char → List Char → Res VerusRpcError Bool)
        (target : List Char) (listing : Res VerusRpcError (List ReceivedByAddressEntry))
        (msgs : List ChatMessage),
      getChatHistory rawVerify target listing = .ok msgs →
      msgs.Pairwise (fun a b => a.timestamp ≤ b.timestamp)) ∧
    (∀ (rawVerify : List Char → List Char → List Char → Res VerusRpcError Bool)
        (target : List Char) (txs1 txs2 : List ReceivedByAddressEntry),
      txs1.Perm txs2 →
      ((historyProcess rawVerify target txs1).map (fun m => m.timestamp)).Nodup →
      getChatHistory rawVerify target (.ok txs1) = getChatHistory rawVerify target (.ok txs2)) ∧
    (∀ (rawVerify : List Char → List Char → List Char → Res VerusRpcError Bool)
        (txs : List ReceivedByAddressEntry),
      getNewReceivedMessages rawVerify (.ok txs) = .ok (pollProcess rawVerify txs)) := by
  refine ⟨?_, ?_, ?_⟩
  · intro rawVerify target listing msgs h
    cases listing with
    | err e => exact Res.noConfusion h
    | ok txs =>
      have h2 : sortByKey (fun m => m.timestamp) (historyProcess rawVerify target txs) =
          msgs := Res.ok.inj h
      rw [← h2]
      exact sortByKey_pairwise _ _
  · intro rawVerify target txs1 txs2 hperm hnd
    have hpp : (historyProcess rawVerify target txs1).Perm
        (historyProcess rawVerify target txs2) := List.Perm.filterMap _ hperm
    have := sortByKey_eq_of_perm (fun m => m.timestamp) _ _ hpp hnd
    show Res.ok (sortByKey (fun m => m.timestamp) (historyProcess rawVerify target txs1)) =
      Res.ok (sortByKey (fun m => m.timestamp) (historyProcess rawVerify target txs2))
    rw [this]
  · intro rawVerify txs
    rfl

/-- Witness for the amended C6: the history path sorts the two messages of the
counterexample listing into ascending order. -/
theorem history_sorted_witness :
    List.Pairwise (fun a b => a.timestamp ≤ b.timestamp)
      [(⟨lc "tx2", lc "al@", lc "b", 3, 1, 9, lc "received"⟩ : ChatMessage),
       ⟨lc "tx1", lc "al@", lc "a", 5, 1, 2, lc "received"⟩] :=
  history_sorted_polling_listing_order.1 okVerify (lc "al@") (.ok [cxTxLate, cxTxEarly])
    [⟨lc "tx2", lc "al@", lc "b", 3, 1, 9, lc "received"⟩,
     ⟨lc "tx1", lc "al@", lc "a", 5, 1, 2, lc "received"⟩] rfl

theorem detectSingle_id (c : BlockchainConfig) (env : DetectEnv) :
    ((detectSingleBlockchain c env).1).blockchain_id = c.id := by
  unfold detectSingleBlockchain
  repeat' split
  all_goals rfl

/-- Claim C5 as stated is false on the code: with two failed tasks (whose
`JoinError` renderings differ, as two distinct panics do), the two synthetic
`Error` entries share the fallback sort key 999, so the stable sort keeps them
in completion order — two runs differing only in completion interleaving
produce different ordered result lists. -/
theorem detect_all_order_counterexample :
    cxPerm1.Perm getBlockchainConfigs ∧ cxPerm2.Perm getBlockchainConfigs ∧
    (detectAllBlockchains (cxPerm1.map cxTask) 0).blockchains ≠
      (detectAllBlockchains (cxPerm2.map cxTask) 0).blockchains := by
  refine ⟨List.Perm.refl _, by decide, by decide⟩

/-- Claim C5 (amended): `total_detected` always equals the number of
`Available` entries, a failed task contributes a synthetic `Error` entry
rather than aborting (the output keeps one entry per task), and the output
list is independent of completion order provided at most one task fails —
with two or more failures only the synthetic tail can still reflect
completion order (the counterexample), while entries of completed tasks
always land at their catalog position. -/
theorem detect_all_catalog_order_amended :
    (∀ (completed : List (Res (List Char) BlockchainDetectionResult)) (d : Nat),
      (detectAllBlockchains completed d).total_detected =
        ((detectAllBlockchains completed d).blockchains.filter
          (fun r => r.status = BlockchainStatus.Available)).length ∧
      (detectAllBlockchains completed d).blockchains.length = completed.length ∧
      (∀ m, Res.err m ∈ completed →
        taskEntry (.err m) ∈ (detectAllBlockchains completed d).blockchains)) ∧
    (∀ (g : BlockchainConfig → Res (List Char) BlockchainDetectionResult),
      (∀ c r, g c = .ok r → r.blockchain_id = c.id) →
      failCount g ≤ 1 →
      ∀ (p1 p2 : List BlockchainConfig) (d1 d2 : Nat),
        p1.Perm getBlockchainConfigs → p2.Perm getBlockchainConfigs →
        (detectAllBlockchains (p1.map g) d1).blockchains =
          (detectAllBlockchains (p2.map g) d2).blockchains) := by
  constructor
  · intro completed d
    refine ⟨rfl, ?_, ?_⟩
    · have hp := sortByKey_perm detectSortKey (completed.map taskEntry)
      calc (detectAllBlockchains completed d).blockchains.length
          = (completed.map taskEntry).length := hp.length_eq
        _ = completed.length := List.length_map _ _
    · intro m hm
      have h1 : taskEntry (.err m) ∈ completed.map taskEntry :=
        List.mem_map_of_mem taskEntry hm
      exact (sortByKey_perm detectSortKey (completed.map taskEntry)).mem_iff.mpr h1
  · intro g hid hfail p1 p2 d1 d2 hp1 hp2
    have F1 : ∀ x ∈ getBlockchainConfigs, ∀ y ∈ getBlockchainConfigs,
        catalogKeyOfId x = catalogKeyOfId y → x = y := by decide
    have F2 : ∀ x ∈ getBlockchainConfigs, catalogKeyOfId x ≠ 999 := by decide
    have hinj : ∀ x ∈ getBlockchainConfigs, ∀ y ∈ getBlockchainConfigs,
        detectSortKey (taskEntry (g x)) = detectSortKey (taskEntry (g y)) → x = y := by
      intro x hx y hy hxy
      cases hgx : g x with
      | ok rx =>
        have hkx : detectSortKey (taskEntry (g x)) = catalogKeyOfId x := by
          rw [hgx]
          show detectSortKey rx = catalogKeyOfId x
          rw [detectSortKey, hid x rx hgx]
          rfl
        cases hgy : g y with
        | ok ry =>
          have hky : detectSortKey (taskEntry (g y)) = catalogKeyOfId y := by
            rw [hgy]
            show detectSortKey ry = catalogKeyOfId y
            rw [detectSortKey, hid y ry hgy]
            rfl
          exact F1 x hx y hy (by rw [← hkx, ← hky]; exact hxy)
        | err my =>
          have hky : detectSortKey (taskEntry (g y)) = 999 := by rw [hgy]; rfl
          exact absurd (by rw [← hkx, hxy, hky] : catalogKeyOfId x = 999) (F2 x hx)
      | err mx =>
        have hkx : detectSortKey (taskEntry (g x)) = 999 := by rw [hgx]; rfl
        cases hgy : g y with
        | ok ry =>
          have hky : detectSortKey (taskEntry (g y)) = catalogKeyOfId y := by
            rw [hgy]
            show detectSortKey ry = catalogKeyOfId y
            rw [detectSortKey, hid y ry hgy]
            rfl
          exact absurd (by rw [← hky, ← hxy, hkx] : catalogKeyOfId y = 999) (F2 y hy)
        | err my =>
          by_contra hne
          have hxf : x ∈ getBlockchainConfigs.filter (fun c => isErrTask (g c)) :=
            List.mem_filter.mpr ⟨hx, by rw [hgx]; rfl⟩
          have hyf : y ∈ getBlockchainConfigs.filter (fun c => isErrTask (g c)) :=
            List.mem_filter.mpr ⟨hy, by rw [hgy]; rfl⟩
          have hsub : ({x, y} : Finset BlockchainConfig) ⊆
              (getBlockchainConfigs.filter (fun c => isErrTask (g c))).toFinset := by
            intro z hz
            rw [Finset.mem_insert, Finset.mem_singleton] at hz
            rcases hz with rfl | rfl
            · exact List.mem_toFinset.mpr hxf
            · exact List.mem_toFinset.mpr hyf
          have hcard : ({x, y} : Finset BlockchainConfig).card = 2 := by
            rw [Finset.card_insert_of_not_mem (by simpa using hne), Finset.card_singleton]
          have h2 : 2 ≤ failCount g := by
            calc 2 = ({x, y} : Finset BlockchainConfig).card := hcard.symm
              _ ≤ (getBlockchainConfigs.filter (fun c => isErrTask (g c))).toFinset.card :=
                  Finset.card_le_card hsub
              _ ≤ (getBlockchainConfigs.filter (fun c => isErrTask (g c))).length :=
                  List.toFinset_card_le _
              _ = failCount g := rfl
          omega
    have hcatnodup : getBlockchainConfigs.Nodup := by decide
    have hnodcat : (((getBlockchainConfigs.map g).map taskEntry).map detectSortKey).Nodup := by
      rw [List.map_map, List.map_map]
      exact List.Nodup.map_on hinj hcatnodup
    have hn1 : (((p1.map g).map taskEntry).map detectSortKey).Nodup := by
      have hmp : ((((getBlockchainConfigs.map g).map taskEntry).map detectSortKey)).Perm
          (((p1.map g).map taskEntry).map detectSortKey) :=
        ((hp1.symm.map g).map taskEntry).map detectSortKey
      exact hmp.nodup hnodcat
    have hperm12 : ((p1.map g).map taskEntry).Perm ((p2.map g).map taskEntry) :=
      ((hp1.trans hp2.symm).map g).map taskEntry
    show sortByKey detectSortKey ((p1.map g).map taskEntry) =
      sortByKey detectSortKey ((p2.map g).map taskEntry)
    exact sortByKey_eq_of_perm detectSortKey _ _ hperm12 hn1

/-- Witness for the amended C5: with no failed task, two different completion
orders (and different durations) give the same ordered list. -/
theorem detect_all_amended_witness :
    (detectAllBlockchains
        (cxPerm2.map (fun c => Res.ok (detectSingleBlockchain c cxDetectEnv).1)) 7).blockchains =
      (detectAllBlockchains
        (cxPerm1.map (fun c => Res.ok (detectSingleBlockchain c cxDetectEnv).1)) 3).blockchains :=
  detect_all_catalog_order_amended.2 _
    (fun c r h => by rw [← Res.ok.inj h]; exact detectSingle_id c cxDetectEnv)
    (by decide) cxPerm2 cxPerm1 7 3 (by decide) (List.Perm.refl _)

/-- Claim C4: single-chain detection is the exact state machine the spec
describes. No existing config at any candidate path gives `NotFound` without
probing; the first existing config failing to parse gives `ParseError` without
probing; otherwise the `getblockcount` probe runs under the 8-second deadline
(`DETECTION_TIMEOUT_SECS`), with deadline expiry mapped to `Timeout`, a
returned height to `Available` carrying that height, a probe error to
`Loading` exactly when it carries the `LOADING:` tag — which
`test_daemon_connection` produces for RPC code -28, keeping the parsed
credentials — and to `Error` otherwise. -/
theorem detect_single_state_machine (c : BlockchainConfig) (env : DetectEnv) :
    DETECTION_TIMEOUT_SECS = 8 ∧
    (firstPresent env.paths = none →
      detectSingleBlockchain c env =
        (⟨c.id, c.name, BlockchainStatus.NotFound, none, none,
          some (lc "No configuration file found in standard locations"), none⟩, false)) ∧
    (∀ p read e, firstPresent env.paths = some (p, read) →
      parseConfigFile read = .err e →
      (detectSingleBlockchain c env).1.status = BlockchainStatus.ParseError ∧
      (detectSingleBlockchain c env).2 = false) ∧
    (∀ p read creds, firstPresent env.paths = some (p, read) →
      parseConfigFile read = .ok creds →
      (detectSingleBlockchain c env).2 = true ∧
      (env.probe = .timedOut →
        (detectSingleBlockchain c env).1.status = BlockchainStatus.Timeout) ∧
      (∀ h n, env.probe = .completed h → testDaemonConnection h = .ok n →
        (detectSingleBlockchain c env).1.status = BlockchainStatus.Available ∧
        (detectSingleBlockchain c env).1.block_height = some n) ∧
      (∀ h e, env.probe = .completed h → testDaemonConnection h = .err e →
        (startsWithL loadingTag e = true →
          (detectSingleBlockchain c env).1.status = BlockchainStatus.Loading ∧
          (detectSingleBlockchain c env).1.credentials = some creds) ∧
        (startsWithL loadingTag e = false →
          (detectSingleBlockchain c env).1.status = BlockchainStatus.Error)) ∧
      (∀ st msg raw res,
        env.probe = .completed (.response st (.jsonBody (.errObj (some (-28)) msg raw) res)) →
        (statusSuccess st = true ∨ st = 500) →
        (detectSingleBlockchain c env).1.status = BlockchainStatus.Loading ∧
        (detectSingleBlockchain c env).1.credentials = some creds)) := by
  refine ⟨rfl, ?_, ?_, ?_⟩
  · intro hfp
    simp [detectSingleBlockchain, hfp]
  · intro p read e hfp hpc
    constructor <;> simp [detectSingleBlockchain, hfp, hpc]
  · intro p read creds hfp hpc
    refine ⟨?_, ?_, ?_, ?_, ?_⟩
    · cases hpr : env.probe with
      | timedOut => simp [detectSingleBlockchain, hfp, hpc, hpr]
      | completed h2 =>
        cases htd : testDaemonConnection h2 with
        | ok n => simp [detectSingleBlockchain, hfp, hpc, hpr, htd]
        | err e2 =>
          by_cases hsw : startsWithL loadingTag e2 = true
          · simp [detectSingleBlockchain, hfp, hpc, hpr, htd, hsw]
          · simp [detectSingleBlockchain, hfp, hpc, hpr, htd, hsw]
    · intro hpr
      simp [detectSingleBlockchain, hfp, hpc, hpr]
    · intro h2 n hpr htd
      constructor <;> simp [detectSingleBlockchain, hfp, hpc, hpr, htd]
    · intro h2 e2 hpr htd
      constructor
      · intro hsw
        constructor <;> simp [detectSingleBlockchain, hfp, hpc, hpr, htd, hsw]
      · intro hsw
        simp [detectSingleBlockchain, hfp, hpc, hpr, htd, hsw]
    · intro st msg raw res hpr hok
      have hcond : ¬ (¬ statusSuccess st = true ∧ st ≠ 500) := by
        rcases hok with h | h
        · intro hand; exact hand.1 h
        · intro hand; exact hand.2 h
      have htd : testDaemonConnection
          (.response st (.jsonBody (.errObj (some (-28)) msg raw) res)) =
            .err (loadingTag ++ msg.getD (lc "Daemon is starting up...")) := by
        simp only [testDaemonConnection]
        rw [if_neg hcond]
        simp
      have hsw : startsWithL loadingTag
          (loadingTag ++ msg.getD (lc "Daemon is starting up...")) = true :=
        startsWithL_append_self _ _
      constructor <;> simp [detectSingleBlockchain, hfp, hpc, hpr, htd, hsw]

/-- Witness for C4 at a loading daemon: config present and parseable, probe
answers RPC code -28, detection reports `Loading`, keeps the credentials, and
the probe was reached. -/
theorem detect_single_state_machine_witness :
    (detectSingleBlockchain ⟨lc "verus", lc "Verus", none, lc "VRSC.conf"⟩
        c4EnvLoading).1.status = BlockchainStatus.Loading ∧
    (detectSingleBlockchain ⟨lc "verus", lc "Verus", none, lc "VRSC.conf"⟩
        c4EnvLoading).1.credentials = some ⟨lc "u", lc "p", 27486⟩ ∧
    (detectSingleBlockchain ⟨lc "verus", lc "Verus", none, lc "VRSC.conf"⟩
        c4EnvLoading).2 = true := by
  have h := detect_single_state_machine ⟨lc "verus", lc "Verus", none, lc "VRSC.conf"⟩
    c4EnvLoading
  have hfp : firstPresent c4EnvLoading.paths =
      some (lc "/home/u/.komodo/VRSC/VRSC.conf",
        .ok [lc "rpcuser=u", lc "rpcpassword=p", lc "rpcport=27486"]) := rfl
  have hpc : parseConfigFile
      (.ok [lc "rpcuser=u", lc "rpcpassword=p", lc "rpcport=27486"]) =
        .ok ⟨lc "u", lc "p", 27486⟩ := by decide
  obtain ⟨hprobed, _, _, _, hminus⟩ := h.2.2.2 _ _ _ hfp hpc
  have hload := hminus 200 (some (lc "Loading block index...")) (lc "code -28") none rfl
    (Or.inl (by decide))
  exact ⟨hload.1, hload.2, hprobed⟩

/-- Witness for C1: a concrete memo that parses, with a verifier answering
`true`, yields the message. -/
theorem chat_message_iff_verify_true_witness :
    parseAndVerifyMessage okVerify (lc "hi//f//al@//t//7//SG") =
      some (lc "hi", lc "al@", 7, lc "SG") :=
  (chat_message_iff_verify_true okVerify (lc "hi//f//al@//t//7//SG")
    (lc "hi") (lc "al@") 7 (lc "SG")).mpr ⟨by decide, rfl⟩
